import Mathlib

/-!
# httpbin: client address resolution, handler assembly and configuration

A shallow embedding of the parts of the `httpbin` service that its
specification makes checkable statements about:

* `app/utils/ip/ip.go`   : `GetClientIP`
* `app/app.go`           : `HTTPBin`, `New`, the `With...` options, `Handler`
* `cmd/httpbin/main.go`  : the resolution of settings from flags and environment

Go strings are modelled by Lean strings (sequences of code points, that is
the Go strings that are valid UTF-8).  Offsets into a string count code points
where Go counts bytes; every offset below is only ever used to cut a string at
a position found by a search in that same string, so the pieces are the same.
-/

namespace Httpbin

/-! ## The Go library functions `GetClientIP` calls -/

namespace textproto

/-- The bytes allowed in a header field name (the `token` characters of
RFC 7230): digits, letters and ``!#$%&'*+-.^_`|~``. -/
def validHeaderFieldByte (c : Char) : Bool :=
  ('0' ≤ c && c ≤ '9') || ('a' ≤ c && c ≤ 'z') || ('A' ≤ c && c ≤ 'Z') ||
    c.toNat ∈ [33, 35, 36, 37, 38, 39, 42, 43, 45, 46, 94, 95, 96, 124, 126]

/-- The rewriting loop of `canonicalMIMEHeaderKey`: upper case for the first
letter and for every letter after a dash, lower case elsewhere. -/
def canonLoop : Bool → List Char → List Char
  | _, [] => []
  | upper, c :: cs =>
    let c1 :=
      if upper && ('a' ≤ c && c ≤ 'z') then Char.ofNat (c.toNat - 32)
      else if !upper && ('A' ≤ c && c ≤ 'Z') then Char.ofNat (c.toNat + 32)
      else c
    c1 :: canonLoop (c1 == '-') cs

/-- Go `canonicalMIMEHeaderKey`: a key holding a byte that is neither a token
character nor a space is returned unchanged, and so is a key holding a space;
any other key is rewritten by `canonLoop`. -/
def canonicalMIMEHeaderKey (a : List Char) : List Char :=
  if a.any (fun c => !validHeaderFieldByte c && c != ' ') then a
  else if a.any (fun c => !validHeaderFieldByte c) then a
  else canonLoop true a

/-- The quick scan of `CanonicalMIMEHeaderKey`: `none` when the scan leaves the
key as it is, `some ()` when it hands the key to `canonicalMIMEHeaderKey`. -/
def quickScan : Bool → List Char → Option Unit
  | _, [] => none
  | upper, c :: cs =>
    if !validHeaderFieldByte c then none
    else if upper && ('a' ≤ c && c ≤ 'z') then some ()
    else if !upper && ('A' ≤ c && c ≤ 'Z') then some ()
    else quickScan (c == '-') cs

/-- Go `textproto.CanonicalMIMEHeaderKey`. -/
def CanonicalMIMEHeaderKey (s : String) : String :=
  match quickScan true s.data with
  | none => s
  | some _ => ⟨canonicalMIMEHeaderKey s.data⟩

end textproto

namespace http

/-- Go `http.Header`, a `map[string][]string`: either the nil map, or a map
given by an association list (the first pair with a key is its entry). -/
inductive Header where
  | nil
  | map (entries : List (String × List String))
  deriving DecidableEq, Repr

/-- The map read `h[key]`: the nil slice when the map is nil or has no such
key. -/
def Header.index (h : Header) (key : String) : List String :=
  match h with
  | .nil => []
  | .map m => (m.lookup key).getD []

/-- Go `Header.Get` (through `textproto.MIMEHeader.Get`): the first value
stored under the canonical form of `key`, the empty string when there is
none. -/
def Header.Get (h : Header) (key : String) : String :=
  match h with
  | .nil => ""
  | .map _ =>
    match h.index (textproto.CanonicalMIMEHeaderKey key) with
    | [] => ""
    | v :: _ => v

/-- Go `Header.Set` on a map made with `make`: the entry of the canonical key
becomes the single value.  (Go panics on a write to the nil map: `none`.) -/
def Header.Set (h : Header) (key value : String) : Option Header :=
  match h with
  | .nil => none
  | .map m =>
    let k := textproto.CanonicalMIMEHeaderKey key
    some (.map ((k, [value]) :: m.filter (fun p => p.1 != k)))

/-- The two fields of `http.Request` that `GetClientIP` reads. -/
structure Request where
  Header : Header
  RemoteAddr : String

end http

namespace unicode

/-- Go `unicode.IsSpace`: a switch for the Latin-1 range, the `White_Space`
range table above it. -/
def IsSpace (r : Char) : Bool :=
  if r.toNat ≤ 0xFF then
    r.toNat ∈ [0x09, 0x0A, 0x0B, 0x0C, 0x0D, 0x20, 0x85, 0xA0]
  else
    r.toNat == 0x1680 || (0x2000 ≤ r.toNat && r.toNat ≤ 0x200A) ||
      (0x2028 ≤ r.toNat && r.toNat ≤ 0x2029) || r.toNat == 0x202F ||
      r.toNat == 0x205F || r.toNat == 0x3000

end unicode

namespace strings

/-- Go `strings.Index`: the offset of the first occurrence of `sep` in `s`,
`none` (Go: `-1`) when there is none. -/
def indexChars (sep : List Char) : List Char → Option Nat
  | [] => if sep.isEmpty then some 0 else none
  | c :: cs =>
    if sep.isPrefixOf (c :: cs) then some 0
    else (indexChars sep cs).map (· + 1)

/-- Go `strings.Count` for a non-empty `sep`: the number of non-overlapping
occurrences, found left to right. -/
def countChars (sep : List Char) (fuel : Nat) (s : List Char) : Nat :=
  match fuel with
  | 0 => 0
  | fuel + 1 =>
    match indexChars sep s with
    | none => 0
    | some m => 1 + countChars sep fuel (s.drop (m + sep.length))

/-- The length `len(s)` of a Go string: its number of bytes in UTF-8. -/
def len (s : List Char) : Nat := (s.map Char.utf8Size).sum

/-- The loop of `genSplit`, run for at most `n` rounds: cut at the next
occurrence of `sep`, keep `sepSave` characters of it, go on after it; the
rest of the string is the last element. -/
def splitLoop (sep : List Char) (sepSave : Nat) : Nat → List Char → List (List Char)
  | 0, s => [s]
  | n + 1, s =>
    match indexChars sep s with
    | none => [s]
    | some m => s.take (m + sepSave) :: splitLoop sep sepSave n (s.drop (m + sep.length))

/-- The loop of `explode` and the assignment after it: `n - 1` pieces of one
code point each, then the rest of the string as the last of the `n` pieces. -/
def explodeLoop : Nat → List Char → List (List Char)
  | 0, _ => []
  | 1, s => [s]
  | n + 2, s => s.take 1 :: explodeLoop (n + 1) (s.drop 1)

/-- Go `explode`: the string cut into code points, into at most `n` pieces
when `0 ≤ n`. -/
def explode (s : List Char) (n : Int) : List (List Char) :=
  explodeLoop (if n < 0 ∨ n > (s.length : Int) then s.length else n.toNat) s

/-- Go `genSplit`. -/
def genSplit (s sep : List Char) (sepSave : Nat) (n : Int) : List (List Char) :=
  if n = 0 then []
  else if sep = [] then
    explode s n
  else
    let n1 : Int := if n < 0 then (countChars sep s.length s : Int) + 1 else n
    let n2 : Int := if n1 > (len s : Int) + 1 then (len s : Int) + 1 else n1
    splitLoop sep sepSave (n2 - 1).toNat s

/-- Go `strings.SplitN`. -/
def SplitN (s sep : String) (n : Int) : List String :=
  (genSplit s.data sep.data 0 n).map String.mk

/-- The table `asciiSpace` of package `strings`. -/
def asciiSpace (c : Char) : Bool :=
  c.toNat ∈ [0x09, 0x0A, 0x0B, 0x0C, 0x0D, 0x20]

/-- Go `strings.TrimLeftFunc`. -/
def TrimLeftFunc (s : List Char) (f : Char → Bool) : List Char :=
  s.dropWhile f

/-- Go `strings.TrimRightFunc`. -/
def TrimRightFunc (s : List Char) (f : Char → Bool) : List Char :=
  (s.reverse.dropWhile f).reverse

/-- Go `strings.TrimFunc`. -/
def TrimFunc (s : List Char) (f : Char → Bool) : List Char :=
  TrimRightFunc (TrimLeftFunc s f) f

/-- The second loop of `TrimSpace`, on the reversed rest of the string: drop
ASCII white space from the end, and hand over to `TrimRightFunc` at the first
character outside ASCII. -/
def trimStop : List Char → List Char
  | [] => []
  | c :: cs =>
    if c.toNat ≥ 0x80 then (TrimRightFunc (c :: cs).reverse unicode.IsSpace).reverse
    else if asciiSpace c then trimStop cs
    else c :: cs

/-- The first loop of `TrimSpace`: drop ASCII white space from the start, hand
over to `TrimFunc` at the first character outside ASCII, and run the second
loop from the first character that is no white space. -/
def trimStart : List Char → List Char
  | [] => []
  | c :: cs =>
    if c.toNat ≥ 0x80 then TrimFunc (c :: cs) unicode.IsSpace
    else if asciiSpace c then trimStart cs
    else (trimStop (c :: cs).reverse).reverse

/-- Go `strings.TrimSpace`. -/
def TrimSpace (s : String) : String := ⟨trimStart s.data⟩

end strings

/-! ## `app/utils/ip/ip.go` -/

namespace ip

open http in
/-- `GetClientIP` of `ip.go`.  The result is `none` when the Go function
panics (the index `[0]` out of range), `some s` when it returns `s`. -/
def GetClientIP (req : Request) : Option String :=
  let clientIP := req.Header.Get "Fly-Client-IP"
  if clientIP ≠ "" then some clientIP
  else
    let forwardedFor := req.Header.Get "X-Forwarded-For"
    if forwardedFor ≠ "" then
      ((strings.SplitN forwardedFor "," 2).get? 0).map strings.TrimSpace
    else some req.RemoteAddr

/-- The helper `makeHeaders` of `Test_GetClientIP`: a header made with `make`,
then `Set` for every pair. -/
def makeHeaders (m : List (String × String)) : Option http.Header :=
  m.foldlM (fun h kv => h.Set kv.1 kv.2) (.map [])

/-- The three cases of `Test_GetClientIP`, with the value each one wants; the
third request has no header map. -/
def testCases : List (Option http.Request × String) :=
  [ ((makeHeaders [("Fly-Client-IP", "9.9.9.9"),
        ("X-Forwarded-For", "1.1.1.1,2.2.2.2,3.3.3.3")]).map (⟨·, "0.0.0.0"⟩), "9.9.9.9"),
    ((makeHeaders [("X-Forwarded-For", "1.1.1.1,2.2.2.2,3.3.3.3")]).map (⟨·, "0.0.0.0"⟩),
      "1.1.1.1"),
    (some ⟨.nil, "0.0.0.0"⟩, "0.0.0.0") ]

end ip

/-! ## The reading of the resolver's contract in the specification -/

namespace Spec

/-- The code points with the Unicode property `White_Space`. -/
def isWhiteSpace (c : Char) : Bool :=
  c.toNat ∈ [0x09, 0x0A, 0x0B, 0x0C, 0x0D, 0x20, 0x85, 0xA0, 0x1680,
    0x2000, 0x2001, 0x2002, 0x2003, 0x2004, 0x2005, 0x2006, 0x2007, 0x2008,
    0x2009, 0x200A, 0x2028, 0x2029, 0x202F, 0x205F, 0x3000]

/-- The part of a string before its first comma, the whole string when it has
no comma. -/
def beforeFirstComma (s : String) : String :=
  ⟨s.data.takeWhile (fun c => c != ',')⟩

/-- A string with its leading and its trailing white space removed. -/
def stripWhiteSpace (s : String) : String :=
  ⟨((s.data.dropWhile isWhiteSpace).reverse.dropWhile isWhiteSpace).reverse⟩

/-- A string of white space only (the empty string is one). -/
def allWhiteSpace (s : String) : Prop :=
  ∀ c ∈ s.data, isWhiteSpace c = true

instance (s : String) : Decidable (allWhiteSpace s) := by
  unfold allWhiteSpace; infer_instance

end Spec

/-! ## `app/app.go` -/

namespace app

/-- Go `time.Duration`: a number of nanoseconds. -/
abbrev Duration := Int

/-- Go `time.Second`. -/
def Second : Duration := 1000000000

def DefaultMaxBodySize : Int := 1024 * 1024

def DefaultMaxDuration : Duration := 10 * Second

def DefaultHostname : String := "httpbin"

/-- Modelled from the spec: the type `Observer` is declared in a file of the
repository that is not among the sources; the specification describes it as a
caller-supplied callback invoked with the outcome of each request.  Only which
observer is installed matters for the assembly of the handler, so an observer
is represented by a name. -/
structure Observer where
  name : String
  deriving DecidableEq, Repr

/-- `DefaultParams` defines default parameter values. -/
structure DefaultParams where
  DripDuration : Duration
  DripDelay : Duration
  DripNumBytes : Int
  deriving DecidableEq, Repr

def DefaultDefaultParams : DefaultParams :=
  { DripDuration := 2 * Second, DripDelay := 2 * Second, DripNumBytes := 10 }

/-- `HTTPBin` contains the business logic; a nil `Observer` is `none`. -/
structure HTTPBin where
  MaxBodySize : Int
  MaxDuration : Duration
  Observer : Option Observer
  DefaultParams : DefaultParams
  hostname : String
  deriving DecidableEq, Repr

/-- `OptionFunc`, a `func(*HTTPBin)`: the update it makes to the instance. -/
abbrev OptionFunc := HTTPBin → HTTPBin

def WithDefaultParams (defaultParams : DefaultParams) : OptionFunc :=
  fun h => { h with DefaultParams := defaultParams }

def WithMaxBodySize (m : Int) : OptionFunc :=
  fun h => { h with MaxBodySize := m }

def WithMaxDuration (d : Duration) : OptionFunc :=
  fun h => { h with MaxDuration := d }

def WithHostname (s : String) : OptionFunc :=
  fun h => { h with hostname := s }

def WithObserver (o : Option Observer) : OptionFunc :=
  fun h => { h with Observer := o }

/-- `New` creates a new HTTPBin instance: the defaults, then every option in
turn. -/
def New (opts : List OptionFunc) : HTTPBin :=
  opts.foldl (fun h opt => opt h)
    { MaxBodySize := DefaultMaxBodySize
      MaxDuration := DefaultMaxDuration
      Observer := none
      DefaultParams := DefaultDefaultParams
      hostname := DefaultHostname }

/-- The endpoint methods of `HTTPBin` that `Handler` registers, with the two
handlers that are no methods of it. -/
inductive Endpoint where
  | Index | FormsPost | UTF8 | RequestWithBody | Get | IP | UserAgent | Headers
  | ResponseHeaders | Hostname | Status | Unstable | Redirect | RelativeRedirect
  | AbsoluteRedirect | RedirectTo | Cookies | SetCookies | DeleteCookies
  | BasicAuth | HiddenBasicAuth | DigestAuth | Bearer | Deflate | Gzip | Stream
  | Delay | Drip | Range | Bytes | StreamBytes | HTML | Robots | Deny | Cache
  | CacheControl | ETag | Links | ImageAccept | Image | XML | JSON | UUID
  | Base64 | notImplementedHandler | NotFound
  deriving DecidableEq, Repr

/-- What `Handler` passes to `HandleFunc`: an endpoint, or an endpoint inside
`methods(..., m)`. -/
inductive RouteHandler where
  | endpoint (e : Endpoint)
  | methods (e : Endpoint) (method : String)
  deriving DecidableEq, Repr

/-- Go `http.ServeMux` as far as registration goes: the patterns and their
handlers, the latest first. -/
structure ServeMux where
  entries : List (String × RouteHandler)
  deriving DecidableEq, Repr

/-- Go `http.NewServeMux`. -/
def NewServeMux : ServeMux := ⟨[]⟩

/-- The patterns registered in a mux. -/
def ServeMux.patterns (mux : ServeMux) : List String :=
  mux.entries.map Prod.fst

/-- Go `ServeMux.HandleFunc`: the registration panics (`none`) on the empty
pattern and on a pattern that is registered already. -/
def ServeMux.HandleFunc (mux : ServeMux) (pattern : String) (handler : RouteHandler) :
    Option ServeMux :=
  if pattern = "" ∨ pattern ∈ mux.patterns then none
  else some ⟨(pattern, handler) :: mux.entries⟩

/-- Go `ServeMux.shouldRedirectRLocked`, for patterns without a host: a path
that is not registered itself is redirected to the path with a slash added
when that one is registered. -/
def ServeMux.shouldRedirect (mux : ServeMux) (path : String) : Bool :=
  if path ∈ mux.patterns then false
  else if path.data.length = 0 then false
  else if (path ++ "/") ∈ mux.patterns then path.data.getLast? != some '/'
  else false

/-- The calls `engine.HandleFunc(pattern, handler)` of `Handler`, in the order
of the source. -/
def registrations : List (String × RouteHandler) :=
  [ ("/", .methods .Index "GET"),
    ("/forms/post", .methods .FormsPost "GET"),
    ("/encoding/utf8", .methods .UTF8 "GET"),
    ("/delete", .methods .RequestWithBody "DELETE"),
    ("/get", .methods .Get "GET"),
    ("/head", .methods .Get "HEAD"),
    ("/patch", .methods .RequestWithBody "PATCH"),
    ("/post", .methods .RequestWithBody "POST"),
    ("/put", .methods .RequestWithBody "PUT"),
    ("/ip", .endpoint .IP),
    ("/user-agent", .endpoint .UserAgent),
    ("/headers", .endpoint .Headers),
    ("/response-headers", .endpoint .ResponseHeaders),
    ("/hostname", .endpoint .Hostname),
    ("/status/", .endpoint .Status),
    ("/unstable", .endpoint .Unstable),
    ("/redirect/", .endpoint .Redirect),
    ("/relative-redirect/", .endpoint .RelativeRedirect),
    ("/absolute-redirect/", .endpoint .AbsoluteRedirect),
    ("/redirect-to", .endpoint .RedirectTo),
    ("/anything/", .endpoint .RequestWithBody),
    ("/anything", .endpoint .RequestWithBody),
    ("/cookies", .endpoint .Cookies),
    ("/cookies/set", .endpoint .SetCookies),
    ("/cookies/delete", .endpoint .DeleteCookies),
    ("/basic-auth/", .endpoint .BasicAuth),
    ("/hidden-basic-auth/", .endpoint .HiddenBasicAuth),
    ("/digest-auth/", .endpoint .DigestAuth),
    ("/bearer", .endpoint .Bearer),
    ("/deflate", .endpoint .Deflate),
    ("/gzip", .endpoint .Gzip),
    ("/stream/", .endpoint .Stream),
    ("/delay/", .endpoint .Delay),
    ("/drip", .endpoint .Drip),
    ("/range/", .endpoint .Range),
    ("/bytes/", .endpoint .Bytes),
    ("/stream-bytes/", .endpoint .StreamBytes),
    ("/html", .endpoint .HTML),
    ("/robots.txt", .endpoint .Robots),
    ("/deny", .endpoint .Deny),
    ("/cache", .endpoint .Cache),
    ("/cache/", .endpoint .CacheControl),
    ("/etag/", .endpoint .ETag),
    ("/links/", .endpoint .Links),
    ("/image", .endpoint .ImageAccept),
    ("/image/", .endpoint .Image),
    ("/xml", .endpoint .XML),
    ("/json", .endpoint .JSON),
    ("/uuid", .endpoint .UUID),
    ("/base64/", .endpoint .Base64),
    ("/brotli", .endpoint .notImplementedHandler),
    ("/absolute-redirect", .endpoint .NotFound),
    ("/basic-auth", .endpoint .NotFound),
    ("/delay", .endpoint .NotFound),
    ("/digest-auth", .endpoint .NotFound),
    ("/hidden-basic-auth", .endpoint .NotFound),
    ("/redirect", .endpoint .NotFound),
    ("/relative-redirect", .endpoint .NotFound),
    ("/status", .endpoint .NotFound),
    ("/stream", .endpoint .NotFound),
    ("/bytes", .endpoint .NotFound),
    ("/stream-bytes", .endpoint .NotFound),
    ("/links", .endpoint .NotFound) ]

/-- The route table of `Handler`: a new mux, then the registrations in
turn (`none` when one of them panics). -/
def engine : Option ServeMux :=
  registrations.foldlM (fun mux r => mux.HandleFunc r.1 r.2) NewServeMux

/-- Modelled from the spec: the middleware constructors `limitRequestSize`,
`preflight`, `autohead` and `observe` are declared in a file of the repository
that is not among the sources; the specification describes each as a layer
around the handler it is given.  A handler is therefore the route table or a
named layer around a handler. -/
inductive Handler where
  | mux (engine : ServeMux)
  | limitRequestSize (maxSize : Int) (next : Handler)
  | preflight (next : Handler)
  | autohead (next : Handler)
  | observe (o : Observer) (next : Handler)
  deriving DecidableEq, Repr

/-- `Handler` returns the handler that exposes all endpoints: the route table
with the global middleware applied (`none` when a registration panics). -/
def HTTPBin.Handler (h : HTTPBin) : Option Handler :=
  match engine with
  | none => none
  | some engine =>
    let handler := Handler.mux engine
    let handler := Handler.limitRequestSize h.MaxBodySize handler
    let handler := Handler.preflight handler
    let handler := Handler.autohead handler
    let handler :=
      match h.Observer with
      | some o => Handler.observe o handler
      | none => handler
    some handler

/-- The four middleware layers by the names the specification gives them. -/
inductive Layer where
  | bodySizeLimiter | preflight | autoHEAD | observer
  deriving DecidableEq, Repr

/-- The layers around the route table, the outermost first: the order in
which a request that every layer hands on enters them. -/
def Handler.layers : Handler → List Layer
  | .mux _ => []
  | .limitRequestSize _ next => Layer.bodySizeLimiter :: next.layers
  | .preflight next => Layer.preflight :: next.layers
  | .autohead next => Layer.autoHEAD :: next.layers
  | .observe _ next => Layer.observer :: next.layers

/-- The route table inside the layers. -/
def Handler.routeTable : Handler → ServeMux
  | .mux e => e
  | .limitRequestSize _ next => next.routeTable
  | .preflight next => next.routeTable
  | .autohead next => next.routeTable
  | .observe _ next => next.routeTable

/-- A subtree pattern other than the root: it ends in a slash and is not
`/`. -/
def isSubtreePattern (p : String) : Bool :=
  p != "/" && p.data.getLast? == some '/'

/-- The bare path of a subtree pattern: the pattern without its last
character. -/
def barePath (p : String) : String := ⟨p.data.dropLast⟩

/-- The options that can be built from the five `With...` functions. -/
inductive OptionCall where
  | withMaxBodySize (m : Int)
  | withMaxDuration (d : Duration)
  | withDefaultParams (p : DefaultParams)
  | withHostname (s : String)
  | withObserver (o : Option Observer)
  deriving DecidableEq, Repr

/-- The `OptionFunc` a call returns. -/
def OptionCall.toOptionFunc : OptionCall → OptionFunc
  | .withMaxBodySize m => WithMaxBodySize m
  | .withMaxDuration d => WithMaxDuration d
  | .withDefaultParams p => WithDefaultParams p
  | .withHostname s => WithHostname s
  | .withObserver o => WithObserver o

/-- The argument of the last call in the list for which `pick` answers, that
is the last call that sets the field `pick` stands for. -/
def lastSet {α : Type} (pick : OptionCall → Option α) (calls : List OptionCall) : Option α :=
  calls.reverse.findSome? pick

def pickMaxBodySize : OptionCall → Option Int
  | .withMaxBodySize m => some m
  | _ => none

def pickMaxDuration : OptionCall → Option Duration
  | .withMaxDuration d => some d
  | _ => none

def pickDefaultParams : OptionCall → Option DefaultParams
  | .withDefaultParams p => some p
  | _ => none

def pickHostname : OptionCall → Option String
  | .withHostname s => some s
  | _ => none

def pickObserver : OptionCall → Option (Option Observer)
  | .withObserver o => some o
  | _ => none

end app

/-! ## The Go library functions `main` parses the environment with -/

namespace strconv

/-- The two errors of `strconv`: `ErrSyntax` and `ErrRange`. -/
inductive NumError where
  | invalid
  | outOfRange
  deriving DecidableEq, Repr

/-- The loop of `ParseUint` for base 10 and 64 bits, from the value `n` read
so far: a character that is no decimal digit is a syntax error, a value that
leaves the 64 bits is a range error. -/
def parseUintLoop : Nat → List Char → Except NumError Nat
  | n, [] => .ok n
  | n, c :: cs =>
    if '0' ≤ c ∧ c ≤ '9' then
      if n ≥ (2 ^ 64 - 1) / 10 + 1 then .error .outOfRange
      else if n * 10 + (c.toNat - 48) > 2 ^ 64 - 1 then .error .outOfRange
      else parseUintLoop (n * 10 + (c.toNat - 48)) cs
    else .error .invalid

/-- Go `strconv.ParseUint(s, 10, 64)`. -/
def ParseUint (s : List Char) : Except NumError Nat :=
  if s = [] then .error .invalid else parseUintLoop 0 s

/-- Go `strconv.ParseInt(s, 10, 64)`: an optional sign, then decimal digits,
the value within the 64 bit signed range. -/
def ParseInt (s : String) : Except NumError Int :=
  if s = "" then .error .invalid
  else
    let neg := s.data.head? == some '-'
    let rest := if s.data.head? == some '+' ∨ s.data.head? == some '-' then s.data.tail else s.data
    match ParseUint rest with
    | .error .invalid => .error .invalid
    | r =>
      let un : Nat := match r with
        | .ok n => n
        | .error _ => 2 ^ 64 - 1
      if !neg ∧ un ≥ 2 ^ 63 then .error .outOfRange
      else if neg ∧ un > 2 ^ 63 then .error .outOfRange
      else .ok (if neg then -(un : Int) else (un : Int))

/-- Go `strconv.Atoi` where `int` has 64 bits: the result of
`ParseInt(s, 10, 0)`, which its fast path for short inputs agrees with. -/
def Atoi (s : String) : Except NumError Int := ParseInt s

end strconv

/-! ## `cmd/httpbin/main.go` -/

namespace main

open app

def defaultPort : Int := 8080

/-- What a command line holds for one flag: the flag is not there, or its
text denotes the value `v`, or its text denotes no value of the flag's kind
(`-port abc`, `-max-duration 5`). -/
inductive FlagArg (α : Type) where
  | absent
  | value (v : α)
  | malformed
  deriving DecidableEq, Repr

/-- The flags of a command line.  The numbers are the ones the texts denote:
they need not fit the 64 bits of `int`, `int64` and `time.Duration`. -/
structure CommandLine where
  port : FlagArg Int
  maxBodySize : FlagArg Int
  maxDuration : FlagArg Duration
  useRealHostname : FlagArg Bool
  deriving DecidableEq, Repr

/-- The ways `main` ends before it has its settings: `flag.Parse` rejects the
command line and exits with status 2, or an environment variable has an
invalid value and `main` exits with status 1. -/
inductive Exit where
  | usage
  | invalidEnv (name : String)
  deriving DecidableEq, Repr

/-- The exit status of the process. -/
def Exit.status : Exit → Nat
  | .usage => 2
  | .invalidEnv _ => 1

/-- The four package variables. -/
structure Settings where
  port : Int
  maxBodySize : Int
  maxDuration : Duration
  useRealHostname : Bool
  deriving DecidableEq, Repr

/-- The variable of a numeric flag after `flag.Parse`: the default the flag is
declared with when it is not given, the value given when it fits 64 bits; the
parse fails on a value that does not fit and on a malformed text. -/
def flagVar (dflt : Int) : FlagArg Int → Except Exit Int
  | .absent => .ok dflt
  | .value v => if -2 ^ 63 ≤ v ∧ v < 2 ^ 63 then .ok v else .error .usage
  | .malformed => .error .usage

/-- The variable of a boolean flag after `flag.Parse`. -/
def boolFlagVar (dflt : Bool) : FlagArg Bool → Except Exit Bool
  | .absent => .ok dflt
  | .value v => .ok v
  | .malformed => .error .usage

/-- Lines 34 to 38 of `main`: the four variables after `flag.Parse`, which
exits with status 2 when it rejects a flag. -/
def flagParse (args : CommandLine) : Except Exit Settings :=
  match flagVar defaultPort args.port with
  | .error e => .error e
  | .ok port =>
    match flagVar DefaultMaxBodySize args.maxBodySize with
    | .error e => .error e
    | .ok maxBodySize =>
      match flagVar DefaultMaxDuration args.maxDuration with
      | .error e => .error e
      | .ok maxDuration =>
        match boolFlagVar false args.useRealHostname with
        | .error e => .error e
        | .ok useRealHostname =>
          .ok { port := port, maxBodySize := maxBodySize,
                maxDuration := maxDuration, useRealHostname := useRealHostname }

/-- Lines 44 to 51 of `main`: the variable `maxBodySize` after the check of
`MAX_BODY_SIZE`. -/
def resolveMaxBodySize (maxBodySize : Int) (getenv : String → String) : Except Exit Int :=
  if maxBodySize = DefaultMaxBodySize ∧ getenv "MAX_BODY_SIZE" ≠ "" then
    match strconv.ParseInt (getenv "MAX_BODY_SIZE") with
    | .error _ => .error (.invalidEnv "MAX_BODY_SIZE")
    | .ok v => .ok v
  else .ok maxBodySize

/-- Lines 52 to 59 of `main`, with `time.ParseDuration` as a parameter. -/
def resolveMaxDuration {ε : Type} (ParseDuration : String → Except ε Duration)
    (maxDuration : Duration) (getenv : String → String) : Except Exit Duration :=
  if maxDuration = DefaultMaxDuration ∧ getenv "MAX_DURATION" ≠ "" then
    match ParseDuration (getenv "MAX_DURATION") with
    | .error _ => .error (.invalidEnv "MAX_DURATION")
    | .ok v => .ok v
  else .ok maxDuration

/-- Lines 60 to 67 of `main`. -/
def resolvePort (port : Int) (getenv : String → String) : Except Exit Int :=
  if port = defaultPort ∧ getenv "PORT" ≠ "" then
    match strconv.Atoi (getenv "PORT") with
    | .error _ => .error (.invalidEnv "PORT")
    | .ok v => .ok v
  else .ok port

/-- Lines 34 to 74 of `main`: the settings it resolves from the command line
and the environment, or the way it exits without them.  `getenv` is
`os.Getenv`, which is empty for an unset variable. -/
def resolve {ε : Type} (ParseDuration : String → Except ε Duration)
    (args : CommandLine) (getenv : String → String) : Except Exit Settings :=
  match flagParse args with
  | .error e => .error e
  | .ok vars =>
    match resolveMaxBodySize vars.maxBodySize getenv with
    | .error e => .error e
    | .ok maxBodySize =>
      match resolveMaxDuration ParseDuration vars.maxDuration getenv with
      | .error e => .error e
      | .ok maxDuration =>
        match resolvePort vars.port getenv with
        | .error e => .error e
        | .ok port =>
          let useRealHostname :=
            if getenv "USE_REAL_HOSTNAME" = "1" ∨ getenv "USE_REAL_HOSTNAME" = "true" then true
            else vars.useRealHostname
          .ok { port := port, maxBodySize := maxBodySize,
                maxDuration := maxDuration, useRealHostname := useRealHostname }

/-- The three settings that a flag and an environment variable both set. -/
inductive Setting where
  | maxBodySize | maxDuration | port
  deriving DecidableEq, Repr

/-- What a command line holds for the flag of a setting. -/
def CommandLine.flag (args : CommandLine) : Setting → FlagArg Int
  | .maxBodySize => args.maxBodySize
  | .maxDuration => args.maxDuration
  | .port => args.port

/-- The built-in default of a setting. -/
def Setting.default : Setting → Int
  | .maxBodySize => DefaultMaxBodySize
  | .maxDuration => DefaultMaxDuration
  | .port => defaultPort

/-- The environment variable of a setting. -/
def Setting.envVar : Setting → String
  | .maxBodySize => "MAX_BODY_SIZE"
  | .maxDuration => "MAX_DURATION"
  | .port => "PORT"

/-- The value of a setting among the four variables. -/
def Settings.get (s : Settings) : Setting → Int
  | .maxBodySize => s.maxBodySize
  | .maxDuration => s.maxDuration
  | .port => s.port

/-- A duration parser that rejects every input.  It stands in for
`time.ParseDuration` in evaluations in which the parser is not called or is
called on the text `bogus`, which is no duration. -/
def rejectDuration : String → Except Unit Duration := fun _ => .error ()

/-- An environment from a list of variables and values: unset variables read
as the empty string. -/
def environ (vars : List (String × String)) : String → String :=
  fun name => (vars.lookup name).getD ""

end main

/-! ## Facts about the library functions -/

namespace strings

theorem len_pos_of_ne_nil (s : List Char) (h : s ≠ []) : 0 < len s := by
  cases s with
  | nil => exact absurd rfl h
  | cons c cs =>
    have := Char.utf8Size_pos c
    simp only [len, List.map_cons, List.sum_cons]
    omega

/-- The search for a comma finds the end of the longest comma-free start of
the string. -/
theorem indexChars_comma (s : List Char) :
    match indexChars [','] s with
    | none => s.takeWhile (fun c => c != ',') = s
    | some m => s.take m = s.takeWhile (fun c => c != ',') := by
  induction s with
  | nil => simp [indexChars]
  | cons c cs ih =>
    by_cases hc : c = ','
    · subst hc
      simp [indexChars, List.isPrefixOf]
    · have hc2 : ¬ (',' = c) := fun h => hc h.symm
      have hne : (c != ',') = true := by simp [hc]
      simp only [indexChars, List.isPrefixOf, beq_iff_eq, hc2, Bool.and_true]
      cases hi : indexChars [','] cs with
      | none =>
        rw [hi] at ih
        simp only [Bool.false_eq_true, ↓reduceIte, Option.map_none'] at ih ⊢
        rw [List.takeWhile_cons, hne]
        simp [ih]
      | some m =>
        rw [hi] at ih
        simp only [Bool.false_eq_true, ↓reduceIte, Option.map_some'] at ih ⊢
        rw [List.takeWhile_cons, hne]
        simp [ih]

/-- Splitting on a comma into at most two parts: the first part is the string
up to its first comma, and at most one part follows. -/
theorem genSplit_comma (s : List Char) :
    ∃ rest, genSplit s [','] 0 2 = s.takeWhile (fun c => c != ',') :: rest ∧ rest.length ≤ 1 := by
  by_cases hs : s = []
  · subst hs
    exact ⟨[], by decide, by simp⟩
  · have hl := len_pos_of_ne_nil s hs
    have h2 : ¬ ((2 : Int) > (len s : Int) + 1) := by omega
    have h3 : ((2 : Int) - 1).toNat = 1 := by decide
    simp only [genSplit, h2, h3, ↓reduceIte, OfNat.ofNat_ne_zero, List.cons_ne_self,
      reduceCtorEq, Int.reduceLT, splitLoop]
    have := indexChars_comma s
    cases hi : indexChars [','] s with
    | none =>
      rw [hi] at this
      exact ⟨[], by simp [this], by simp⟩
    | some m =>
      rw [hi] at this
      exact ⟨[s.drop (m + 1)], by simp [this], by simp⟩

theorem isSpace_eq_isWhiteSpace (c : Char) : unicode.IsSpace c = Spec.isWhiteSpace c := by
  unfold unicode.IsSpace Spec.isWhiteSpace
  generalize c.toNat = n
  by_cases h : n ≤ 0xFF
  · simp only [h, ↓reduceIte]
    simp only [List.mem_cons, List.mem_singleton, List.not_mem_nil, or_false, decide_eq_decide]
    omega
  · simp only [h, ↓reduceIte]
    rw [Bool.eq_iff_iff]
    simp only [Bool.or_eq_true, Bool.and_eq_true, beq_iff_eq, decide_eq_true_eq,
      List.mem_cons, List.mem_singleton, List.not_mem_nil, or_false]
    omega

theorem asciiSpace_eq_isSpace (c : Char) (h : ¬ c.toNat ≥ 0x80) :
    asciiSpace c = unicode.IsSpace c := by
  unfold unicode.IsSpace asciiSpace
  generalize c.toNat = n at h
  have h1 : n ≤ 0xFF := by omega
  simp only [h1, ↓reduceIte]
  simp only [List.mem_cons, List.mem_singleton, List.not_mem_nil, or_false, decide_eq_decide]
  omega

theorem trimStop_eq (s : List Char) : trimStop s = s.dropWhile unicode.IsSpace := by
  induction s with
  | nil => rfl
  | cons c cs ih =>
    by_cases h : c.toNat ≥ 0x80
    · simp [trimStop, h, TrimRightFunc]
    · have ha := asciiSpace_eq_isSpace c h
      by_cases hsp : unicode.IsSpace c = true
      · simp [trimStop, h, ha, hsp, ih, List.dropWhile]
      · simp [trimStop, h, ha, hsp, List.dropWhile]

theorem trimStart_eq (s : List Char) : trimStart s = TrimFunc s unicode.IsSpace := by
  induction s with
  | nil => rfl
  | cons c cs ih =>
    by_cases h : c.toNat ≥ 0x80
    · simp [trimStart, h]
    · have ha := asciiSpace_eq_isSpace c h
      by_cases hsp : unicode.IsSpace c = true
      · simp [trimStart, h, ha, hsp, ih, TrimFunc, TrimLeftFunc, List.dropWhile]
      · simp [trimStart, h, ha, hsp, trimStop_eq, TrimFunc, TrimLeftFunc, TrimRightFunc,
          List.dropWhile]

/-- Go `TrimSpace` removes the leading and the trailing white space. -/
theorem TrimSpace_eq_strip (s : String) : TrimSpace s = Spec.stripWhiteSpace s := by
  have hf : unicode.IsSpace = Spec.isWhiteSpace := funext isSpace_eq_isWhiteSpace
  simp [TrimSpace, Spec.stripWhiteSpace, trimStart_eq, TrimFunc, TrimLeftFunc, TrimRightFunc, hf]

/-- The first element of the split of a string on a comma. -/
theorem SplitN_comma (s : String) :
    ∃ rest, SplitN s "," 2 = Spec.beforeFirstComma s :: rest ∧ rest.length ≤ 1 := by
  obtain ⟨rest, h, hl⟩ := genSplit_comma s.data
  refine ⟨rest.map String.mk, ?_, by simpa using hl⟩
  have hc : (",": String).data = [','] := rfl
  simp [SplitN, hc, h, Spec.beforeFirstComma]

end strings

/-! ## `GetClientIP` -/

namespace Spec

theorem strip_data_eq_nil_iff (f : Char → Bool) (l : List Char) :
    ((l.dropWhile f).reverse.dropWhile f).reverse = [] ↔ ∀ c ∈ l, f c = true := by
  constructor
  · intro h
    have h1 : ∀ c ∈ l.dropWhile f, f c = true := by
      have h2 := List.reverse_eq_nil_iff.mp h
      rw [List.dropWhile_eq_nil_iff] at h2
      intro c hc
      exact h2 c (List.mem_reverse.mpr hc)
    have h3 : l.dropWhile f = [] := by
      by_contra hne
      have hhd := List.head_dropWhile_not f l hne
      have := h1 _ (List.head_mem hne)
      simp [this] at hhd
    exact List.dropWhile_eq_nil_iff.mp h3
  · intro h
    have : l.dropWhile f = [] := List.dropWhile_eq_nil_iff.mpr h
    simp [this]

/-- Stripping leaves the empty string exactly for a string of white space. -/
theorem stripWhiteSpace_eq_empty_iff (s : String) :
    stripWhiteSpace s = "" ↔ allWhiteSpace s := by
  unfold allWhiteSpace
  rw [← strip_data_eq_nil_iff]
  constructor
  · intro h
    have := congrArg String.data h
    simpa [stripWhiteSpace] using this
  · intro h
    simp only [stripWhiteSpace]
    rw [h]

end Spec

namespace ip

open http

/-- A header whose map holds the canonical key `Fly-Client-Ip` with a first
value is what `Get("Fly-Client-IP")` reads. -/
theorem Get_fly_of_entry (m : List (String × List String)) (v : String) (vs : List String)
    (h : m.lookup "Fly-Client-Ip" = some (v :: vs)) :
    (Header.map m).Get "Fly-Client-IP" = v := by
  have hk : textproto.CanonicalMIMEHeaderKey "Fly-Client-IP" = "Fly-Client-Ip" := by decide
  simp [Header.Get, Header.index, hk, h]

/-- A header whose map holds the key `X-Forwarded-For` with a first value is
what `Get("X-Forwarded-For")` reads. -/
theorem Get_forwarded_of_entry (m : List (String × List String)) (v : String)
    (vs : List String) (h : m.lookup "X-Forwarded-For" = some (v :: vs)) :
    (Header.map m).Get "X-Forwarded-For" = v := by
  have hk : textproto.CanonicalMIMEHeaderKey "X-Forwarded-For" = "X-Forwarded-For" := by decide
  simp [Header.Get, Header.index, hk, h]

/-- The nil header map has no header. -/
theorem Get_nil (key : String) : Header.nil.Get key = "" := rfl

/-- The value `GetClientIP` returns in its first case. -/
theorem GetClientIP_fly_first (req : Request) (hfly : req.Header.Get "Fly-Client-IP" ≠ "") :
    GetClientIP req = some (req.Header.Get "Fly-Client-IP") := by
  simp [GetClientIP, hfly]

/-- The value `GetClientIP` returns in its third case. -/
theorem GetClientIP_third (req : Request) (hfly : req.Header.Get "Fly-Client-IP" = "")
    (hxff : req.Header.Get "X-Forwarded-For" = "") :
    GetClientIP req = some req.RemoteAddr := by
  simp [GetClientIP, hfly, hxff]

/-- The value `GetClientIP` returns in its second case. -/
theorem GetClientIP_second (req : Request) (hfly : req.Header.Get "Fly-Client-IP" = "")
    (hxff : req.Header.Get "X-Forwarded-For" ≠ "") :
    GetClientIP req = some (Spec.stripWhiteSpace
      (Spec.beforeFirstComma (req.Header.Get "X-Forwarded-For"))) := by
  obtain ⟨rest, hsplit, _⟩ := strings.SplitN_comma (req.Header.Get "X-Forwarded-For")
  simp [GetClientIP, hfly, hxff, hsplit, strings.TrimSpace_eq_strip]

/-- C1: for every request whose Fly-Client-IP header is present and non-empty
(its value `v`, as `Header.Get` reads it, is not the empty string),
`GetClientIP` returns exactly `v`, whatever the X-Forwarded-For header and
`RemoteAddr` hold. -/
theorem GetClientIP_fly_client_ip (req : Request) (v : String)
    (hget : req.Header.Get "Fly-Client-IP" = v) (hv : v ≠ "") :
    GetClientIP req = some v := by
  subst hget
  simp [GetClientIP, hv]

/-- The first case of `Test_GetClientIP`, by the theorem above. -/
theorem GetClientIP_fly_client_ip_witness :
    GetClientIP ⟨.map [("Fly-Client-Ip", ["9.9.9.9"]),
        ("X-Forwarded-For", ["1.1.1.1,2.2.2.2,3.3.3.3"])], "0.0.0.0"⟩ = some "9.9.9.9" :=
  GetClientIP_fly_client_ip _ "9.9.9.9" (by decide) (by decide)

/-- C2: for every request whose Fly-Client-IP header is absent or empty and
whose X-Forwarded-For header is non-empty, `GetClientIP` returns the part of
the X-Forwarded-For value before its first comma (the whole value when it has
no comma) with leading and trailing white space removed, whatever `RemoteAddr`
holds. -/
theorem GetClientIP_forwarded_for (req : Request) (xff : String)
    (hfly : req.Header.Get "Fly-Client-IP" = "")
    (hget : req.Header.Get "X-Forwarded-For" = xff) (hxff : xff ≠ "") :
    GetClientIP req = some (Spec.stripWhiteSpace (Spec.beforeFirstComma xff)) := by
  subst hget
  exact GetClientIP_second req hfly hxff

/-- A forwarded-for list with white space around its first entry. -/
theorem GetClientIP_forwarded_for_witness :
    GetClientIP ⟨.map [("X-Forwarded-For", [" 1.1.1.1 ,2.2.2.2,3.3.3.3"])], "0.0.0.0"⟩
      = some "1.1.1.1" :=
  GetClientIP_forwarded_for _ " 1.1.1.1 ,2.2.2.2,3.3.3.3" (by decide) (by decide) (by decide)

/-- C3: for every request in which both the Fly-Client-IP and the
X-Forwarded-For header are absent or empty, `GetClientIP` returns `RemoteAddr`
unchanged; a request with no header map at all is such a request. -/
theorem GetClientIP_remote_addr (req : Request)
    (hfly : req.Header.Get "Fly-Client-IP" = "")
    (hxff : req.Header.Get "X-Forwarded-For" = "") :
    GetClientIP req = some req.RemoteAddr ∧
      ∀ addr : String, GetClientIP ⟨Header.nil, addr⟩ = some addr := by
  constructor
  · simp [GetClientIP, hfly, hxff]
  · intro addr
    simp [GetClientIP, Get_nil]

/-- A request with an empty Fly-Client-IP header and no X-Forwarded-For
header, by the theorem above. -/
theorem GetClientIP_remote_addr_witness :
    GetClientIP ⟨.map [("Fly-Client-Ip", [""]), ("Accept", ["*/*"])], "0.0.0.0"⟩
      = some "0.0.0.0" :=
  (GetClientIP_remote_addr ⟨.map [("Fly-Client-Ip", [""]), ("Accept", ["*/*"])], "0.0.0.0"⟩
    (by decide) (by decide)).1

/-- C4, as the specification states it, fails: a request without a
Fly-Client-IP header whose X-Forwarded-For header is `,1.1.1.1` gets the empty
string although its `RemoteAddr` is `0.0.0.0`. -/
theorem GetClientIP_empty_counterexample :
    GetClientIP ⟨.map [("X-Forwarded-For", [",1.1.1.1"])], "0.0.0.0"⟩ = some "" ∧
      (Request.mk (.map [("X-Forwarded-For", [",1.1.1.1"])]) "0.0.0.0").RemoteAddr ≠ "" := by
  decide

/-- C4, amended: for every request, if `GetClientIP` returns the empty string
then either `RemoteAddr` is the empty string, or the Fly-Client-IP header is
absent or empty and the X-Forwarded-For header is non-empty with nothing but
white space before its first comma. -/
theorem GetClientIP_empty (req : Request) (h : GetClientIP req = some "") :
    req.RemoteAddr = "" ∨
      (req.Header.Get "Fly-Client-IP" = "" ∧ req.Header.Get "X-Forwarded-For" ≠ "" ∧
        Spec.allWhiteSpace (Spec.beforeFirstComma (req.Header.Get "X-Forwarded-For"))) := by
  by_cases hfly : req.Header.Get "Fly-Client-IP" = ""
  · by_cases hxff : req.Header.Get "X-Forwarded-For" = ""
    · left
      have := GetClientIP_third req hfly hxff
      rw [this] at h
      exact Option.some.inj h
    · right
      refine ⟨hfly, hxff, ?_⟩
      rw [GetClientIP_second req hfly hxff] at h
      exact (Spec.stripWhiteSpace_eq_empty_iff _).mp (Option.some.inj h)
  · exfalso
    have := GetClientIP_fly_first req hfly
    rw [this] at h
    exact hfly (Option.some.inj h)

/-- A request that gets the empty string, by the theorem above. -/
theorem GetClientIP_empty_witness :
    (Request.mk (.map [("X-Forwarded-For", [" \t, 1.1.1.1"])]) "0.0.0.0").RemoteAddr = "" ∨
      ((Header.map [("X-Forwarded-For", [" \t, 1.1.1.1"])]).Get "Fly-Client-IP" = "" ∧
        (Header.map [("X-Forwarded-For", [" \t, 1.1.1.1"])]).Get "X-Forwarded-For" ≠ "" ∧
        Spec.allWhiteSpace (Spec.beforeFirstComma
          ((Header.map [("X-Forwarded-For", [" \t, 1.1.1.1"])]).Get "X-Forwarded-For"))) :=
  GetClientIP_empty ⟨.map [("X-Forwarded-For", [" \t, 1.1.1.1"])], "0.0.0.0"⟩ (by decide)

/-- C5: `GetClientIP` has no failure case: the split of any X-Forwarded-For
value on a comma into at most two parts has a first element and at most one
more, so the index `[0]` is within range, and for every request a string is
returned. -/
theorem GetClientIP_total :
    (∀ v : String, ∃ first rest, strings.SplitN v "," 2 = first :: rest ∧ rest.length ≤ 1) ∧
      (∀ req : Request, ∃ s, GetClientIP req = some s) := by
  constructor
  · intro v
    obtain ⟨rest, h, hl⟩ := strings.SplitN_comma v
    exact ⟨_, rest, h, hl⟩
  · intro req
    by_cases hfly : req.Header.Get "Fly-Client-IP" = ""
    · by_cases hxff : req.Header.Get "X-Forwarded-For" = ""
      · exact ⟨_, GetClientIP_third req hfly hxff⟩
      · exact ⟨_, GetClientIP_second req hfly hxff⟩
    · exact ⟨_, GetClientIP_fly_first req hfly⟩

end ip

/-! ## `HTTPBin.Handler` -/

namespace app

/-- No registration of `Handler` panics: the route table holds every
registration, the latest first. -/
theorem engine_eq : engine = some ⟨registrations.reverse⟩ := by
  decide

/-- The handler `Handler` returns when an observer is set. -/
theorem Handler_with_observer (h : HTTPBin) (o : Observer) (ho : h.Observer = some o) :
    h.Handler = some (.observe o (.autohead (.preflight
      (.limitRequestSize h.MaxBodySize (.mux ⟨registrations.reverse⟩))))) := by
  simp [HTTPBin.Handler, engine_eq, ho]

/-- The handler `Handler` returns when no observer is set. -/
theorem Handler_without_observer (h : HTTPBin) (ho : h.Observer = none) :
    h.Handler = some (.autohead (.preflight
      (.limitRequestSize h.MaxBodySize (.mux ⟨registrations.reverse⟩)))) := by
  simp [HTTPBin.Handler, engine_eq, ho]

/-- C6, as the specification states it, fails: in the handler of an instance
made with an observer the outermost layer is the observer wrapper and the
innermost is the body-size limiter, not the other way round. -/
theorem Handler_layers_counterexample :
    (New [WithObserver (some ⟨"log"⟩)]).Observer = some ⟨"log"⟩ ∧
      ((New [WithObserver (some ⟨"log"⟩)]).Handler.map Handler.layers
        = some [Layer.observer, Layer.autoHEAD, Layer.preflight, Layer.bodySizeLimiter]) ∧
      ((New [WithObserver (some ⟨"log"⟩)]).Handler.map Handler.layers
        ≠ some [Layer.bodySizeLimiter, Layer.preflight, Layer.autoHEAD, Layer.observer]) := by
  have h := Handler_with_observer (New [WithObserver (some ⟨"log"⟩)]) ⟨"log"⟩ rfl
  rw [h]
  decide

/-- C6, amended: in the handler that `Handler` returns with an observer set,
the middleware layers wrap the route table in this order, outermost first:
observer, auto-HEAD, preflight, body-size limiter; so an inbound request
enters the observer wrapper first and the body-size limiter last before the
route table, which holds every registration. -/
theorem Handler_layers (h : HTTPBin) (o : Observer) (ho : h.Observer = some o) :
    ∃ handler, h.Handler = some handler ∧
      handler.layers
        = [Layer.observer, Layer.autoHEAD, Layer.preflight, Layer.bodySizeLimiter] ∧
      handler.routeTable.entries = registrations.reverse := by
  refine ⟨_, Handler_with_observer h o ho, ?_, ?_⟩
  · rfl
  · rfl

/-- The handler of an instance made with an observer, by the theorem above. -/
theorem Handler_layers_witness :
    ∃ handler, (New [WithObserver (some ⟨"log"⟩)]).Handler = some handler ∧
      handler.layers
        = [Layer.observer, Layer.autoHEAD, Layer.preflight, Layer.bodySizeLimiter] ∧
      handler.routeTable.entries = registrations.reverse :=
  Handler_layers (New [WithObserver (some ⟨"log"⟩)]) ⟨"log"⟩ rfl

/-- C7 fails on the code: the subtree patterns `/base64/`, `/etag/` and
`/range/` are registered without their bare paths, every other subtree pattern
has its bare path registered, and the mux redirects the unregistered bare
paths `/range`, `/etag` and `/base64` to the path with the slash added. -/
theorem bare_paths_missing :
    (engine.map fun mux => mux.patterns.filter
        fun p => isSubtreePattern p && !decide (barePath p ∈ mux.patterns))
      = some ["/base64/", "/etag/", "/range/"] ∧
    engine.map (fun mux => ["/range", "/etag", "/base64"].map mux.shouldRedirect)
      = some [true, true, true] ∧
    engine.map (fun mux => ["/status", "/delay", "/links", "/anything", "/cache", "/image"].map
        mux.shouldRedirect)
      = some [false, false, false, false, false, false] := by
  rw [engine_eq]
  decide

end app

/-! ## `New` and the options -/

namespace app

/-- The last call that sets a field, for a list with one more call in front:
the last such call of the rest, and the call in front when the rest has
none. -/
theorem lastSet_cons {α : Type} (pick : OptionCall → Option α) (a : OptionCall)
    (calls : List OptionCall) :
    lastSet pick (a :: calls) = (lastSet pick calls).or (pick a) := by
  unfold lastSet
  rw [List.reverse_cons, List.findSome?_append]
  cases h : List.findSome? pick calls.reverse with
  | none => cases hp : pick a <;> simp [List.findSome?, hp]
  | some v => simp

theorem getD_or {α : Type} (x y : Option α) (d : α) :
    (x.or y).getD d = x.getD (y.getD d) := by
  cases x <;> rfl

/-- The options applied in turn to any instance: every field is the argument
of the last call that sets it, and the field of the instance when no call
does. -/
theorem foldl_options (calls : List OptionCall) (h0 : HTTPBin) :
    (calls.map OptionCall.toOptionFunc).foldl (fun h opt => opt h) h0 =
      { MaxBodySize := (lastSet pickMaxBodySize calls).getD h0.MaxBodySize
        MaxDuration := (lastSet pickMaxDuration calls).getD h0.MaxDuration
        Observer := (lastSet pickObserver calls).getD h0.Observer
        DefaultParams := (lastSet pickDefaultParams calls).getD h0.DefaultParams
        hostname := (lastSet pickHostname calls).getD h0.hostname } := by
  induction calls generalizing h0 with
  | nil => rfl
  | cons a calls ih =>
    rw [List.map_cons, List.foldl_cons, ih]
    simp only [lastSet_cons]
    cases a <;>
      simp [getD_or, OptionCall.toOptionFunc, WithMaxBodySize, WithMaxDuration,
        WithDefaultParams, WithHostname, WithObserver, pickMaxBodySize, pickMaxDuration,
        pickDefaultParams, pickHostname, pickObserver]

/-- C9: `New` called with no options returns an instance whose `MaxBodySize`
is 1048576 bytes (1024 * 1024), whose `MaxDuration` is 10 seconds, whose
`DefaultParams` are a drip duration of 2 seconds, a drip delay of 2 seconds
and 10 drip bytes, whose hostname is `httpbin` and whose `Observer` is nil. -/
theorem New_defaults :
    New [] =
      { MaxBodySize := 1048576
        MaxDuration := 10 * Second
        Observer := none
        DefaultParams := { DripDuration := 2 * Second, DripDelay := 2 * Second, DripNumBytes := 10 }
        hostname := "httpbin" } ∧
      (1048576 : Int) = 1024 * 1024 ∧ Second = 1000000000 := by
  decide

/-- C10: for every list of options built from `WithMaxBodySize`,
`WithMaxDuration`, `WithDefaultParams`, `WithHostname` and `WithObserver`,
`New` applies them left to right and each option changes only its own field:
each field of the result is the argument of the last option in the list that
sets that field, and the default value when no option in the list sets it. -/
theorem New_options (calls : List OptionCall) :
    New (calls.map OptionCall.toOptionFunc) =
      { MaxBodySize := (lastSet pickMaxBodySize calls).getD DefaultMaxBodySize
        MaxDuration := (lastSet pickMaxDuration calls).getD DefaultMaxDuration
        Observer := (lastSet pickObserver calls).getD none
        DefaultParams := (lastSet pickDefaultParams calls).getD DefaultDefaultParams
        hostname := (lastSet pickHostname calls).getD DefaultHostname } ∧
      ∀ call : OptionCall, New ((calls ++ [call]).map OptionCall.toOptionFunc)
        = call.toOptionFunc (New (calls.map OptionCall.toOptionFunc)) := by
  constructor
  · unfold New
    rw [foldl_options]
  · intro call
    simp [New, List.foldl_append]

end app

/-! ## The settings `main` resolves -/

namespace main

open app

/-- The variable of a numeric flag that is given with a value of 64 bits is
that value. -/
theorem flagVar_value (dflt v : Int) (hlo : -2 ^ 63 ≤ v) (hhi : v < 2 ^ 63) :
    flagVar dflt (.value v) = .ok v := by
  show (if -2 ^ 63 ≤ v ∧ v < 2 ^ 63 then Except.ok v else Except.error Exit.usage) = Except.ok v
  rw [if_pos ⟨hlo, hhi⟩]

/-- The variables after a successful `flag.Parse` hold, for a flag given with
a value, that value. -/
theorem flagParse_get (args : CommandLine) (vars : Settings) (h : flagParse args = .ok vars)
    (k : Setting) (v : Int) (hflag : args.flag k = .value v) : vars.get k = v := by
  have key : ∀ (dflt w : Int), flagVar dflt (.value v) = .ok w → w = v := by
    intro dflt w hw
    change (if -2 ^ 63 ≤ v ∧ v < 2 ^ 63 then Except.ok v else Except.error Exit.usage)
      = Except.ok w at hw
    by_cases hc : -2 ^ 63 ≤ v ∧ v < 2 ^ 63
    · rw [if_pos hc] at hw
      exact (Except.ok.inj hw).symm
    · rw [if_neg hc] at hw
      cases hw
  unfold flagParse at h
  cases h1 : flagVar defaultPort args.port with
  | error e => simp [h1] at h
  | ok p =>
    cases h2 : flagVar DefaultMaxBodySize args.maxBodySize with
    | error e => simp [h1, h2] at h
    | ok b =>
      cases h3 : flagVar DefaultMaxDuration args.maxDuration with
      | error e => simp [h1, h2, h3] at h
      | ok d =>
        cases h4 : boolFlagVar false args.useRealHostname with
        | error e => simp [h1, h2, h3, h4] at h
        | ok u =>
          simp only [h1, h2, h3, h4, Except.ok.injEq] at h
          subst h
          cases k <;> simp only [CommandLine.flag] at hflag <;> simp only [Settings.get]
          · rw [hflag] at h2; exact key _ _ h2
          · rw [hflag] at h3; exact key _ _ h3
          · rw [hflag] at h1; exact key _ _ h1

/-- Where the guard of `main` does keep the flag: a flag given with a value
other than the built-in default of its setting is what every resolved set of
settings holds, whatever the environment holds. -/
theorem resolve_keeps_other_value {ε : Type} (ParseDuration : String → Except ε Duration)
    (args : CommandLine) (getenv : String → String) (k : Setting) (v : Int)
    (hflag : args.flag k = .value v) (hv : v ≠ k.default) (s : Settings)
    (hs : resolve ParseDuration args getenv = .ok s) : s.get k = v := by
  unfold resolve at hs
  cases h0 : flagParse args with
  | error e => simp [h0] at hs
  | ok vars =>
    have hget := flagParse_get args vars h0 k v hflag
    cases h1 : resolveMaxBodySize vars.maxBodySize getenv with
    | error e => simp [h0, h1] at hs
    | ok b =>
      cases h2 : resolveMaxDuration ParseDuration vars.maxDuration getenv with
      | error e => simp [h0, h1, h2] at hs
      | ok d =>
        cases h3 : resolvePort vars.port getenv with
        | error e => simp [h0, h1, h2, h3] at hs
        | ok p =>
          simp only [h0, h1, h2, h3, Except.ok.injEq] at hs
          subst hs
          cases k <;> simp only [Settings.get] at hget ⊢ <;> simp only [Setting.default] at hv
          · rw [hget] at h1
            simp [resolveMaxBodySize, hv] at h1
            exact h1.symm
          · rw [hget] at h2
            simp [resolveMaxDuration, hv] at h2
            exact h2.symm
          · rw [hget] at h3
            simp [resolvePort, hv] at h3
            exact h3.symm

/-- C8 fails on the code: a flag given with the built-in default of its
setting does not take precedence over the environment variable.  With
`-port 8080` and `PORT=9000` the port `main` resolves is 9000; with
`-max-body-size 1048576` and `MAX_BODY_SIZE=bogus`, and with
`-max-duration 10s` and `MAX_DURATION=bogus`, `main` exits with status 1 on
the environment variable instead of resolving the value of the flag. -/
theorem flag_default_overridden :
    resolve rejectDuration ⟨.value 8080, .absent, .absent, .absent⟩
        (environ [("PORT", "9000")])
      = .ok { port := 9000, maxBodySize := 1048576, maxDuration := 10000000000,
              useRealHostname := false } ∧
    resolve rejectDuration ⟨.absent, .value 1048576, .absent, .absent⟩
        (environ [("MAX_BODY_SIZE", "bogus")])
      = .error (.invalidEnv "MAX_BODY_SIZE") ∧
    resolve rejectDuration ⟨.absent, .absent, .value 10000000000, .absent⟩
        (environ [("MAX_DURATION", "bogus")])
      = .error (.invalidEnv "MAX_DURATION") ∧
    (Exit.invalidEnv "MAX_DURATION").status = 1 :=
  ⟨rfl, rfl, rfl, rfl⟩

/-- Evaluations of `main`: a flag with another value than the default is
kept, and a flag whose value does not fit 64 bits ends `main` with status
2. -/
theorem resolve_examples :
    resolve rejectDuration ⟨.value 9090, .absent, .absent, .absent⟩
        (environ [("PORT", "9000")])
      = .ok { port := 9090, maxBodySize := 1048576, maxDuration := 10000000000,
              useRealHostname := false } ∧
    resolve rejectDuration ⟨.value 99999999999999999999, .absent, .absent, .absent⟩
        (environ [("PORT", "9000")])
      = .error .usage ∧
    resolve rejectDuration ⟨.malformed, .absent, .absent, .absent⟩ (environ [])
      = .error .usage ∧
    resolve rejectDuration ⟨.absent, .absent, .absent, .absent⟩
        (environ [("PORT", "9000"), ("USE_REAL_HOSTNAME", "1")])
      = .ok { port := 9000, maxBodySize := 1048576, maxDuration := 10000000000,
              useRealHostname := true } ∧
    Exit.usage.status = 2 :=
  ⟨rfl, rfl, rfl, rfl, rfl⟩

end main

/-! ## Evaluations -/

/-- The three cases of `Test_GetClientIP` pass. -/
theorem ip.testCases_pass :
    ∀ c ∈ ip.testCases, c.1.bind ip.GetClientIP = some c.2 := by
  decide

theorem textproto.canonical_fly :
    textproto.CanonicalMIMEHeaderKey "Fly-Client-IP" = "Fly-Client-Ip" ∧
      textproto.CanonicalMIMEHeaderKey "fly-client-ip" = "Fly-Client-Ip" ∧
      textproto.CanonicalMIMEHeaderKey "X-Forwarded-For" = "X-Forwarded-For" := by
  decide

theorem strings.SplitN_examples :
    strings.SplitN "1.1.1.1,2.2.2.2,3.3.3.3" "," 2 = ["1.1.1.1", "2.2.2.2,3.3.3.3"] ∧
      strings.SplitN "a,b,c" "," (-1) = ["a", "b", "c"] ∧
      strings.SplitN "abc" "" 2 = ["a", "bc"] ∧
      strings.SplitN "" "," 2 = [""] ∧
      strings.SplitN "a,b" "," 0 = [] := by
  decide

theorem strings.TrimSpace_examples :
    strings.TrimSpace "  1.1.1.1 \t" = "1.1.1.1" ∧
      strings.TrimSpace "  a b  " = "a b" ∧
      strings.TrimSpace " \r\n" = "" := by
  decide

theorem strconv.ParseInt_examples :
    strconv.ParseInt "9000" = .ok 9000 ∧
      strconv.ParseInt "-12" = .ok (-12) ∧
      strconv.ParseInt "+7" = .ok 7 ∧
      strconv.ParseInt "" = .error .invalid ∧
      strconv.ParseInt "12a" = .error .invalid ∧
      strconv.ParseInt "9223372036854775807" = .ok 9223372036854775807 ∧
      strconv.ParseInt "9223372036854775808" = .error .outOfRange ∧
      strconv.ParseInt "-9223372036854775808" = .ok (-9223372036854775808) ∧
      strconv.ParseInt "99999999999999999999999" = .error .outOfRange :=
  ⟨rfl, rfl, rfl, rfl, rfl, rfl, rfl, rfl, rfl⟩

end Httpbin
